import Mathlib

/- Shallow embedding of the probing core of asound-conf-wizard (src/main.rs).
   Every external ALSA call (PCM::new, HwParams::any, set_*/get_*/test_* and
   pcm.hw_params) is modelled by an oracle structure whose Bool / Option
   fields stand for the outcome of the corresponding C API call; the Rust
   control flow around those calls is translated statement by statement. -/

/- The sample formats of interest.  The alsa crate's Format type has many
   more constructors; u8 is included here because the specification mentions
   it, even though the source's FORMATS constant (main.rs line 29) does not. -/
inductive Format where
  | u8
  | s16
  | s24_3
  | s24
  | s32
deriving DecidableEq

/- const FORMATS: [Format; 4] = [Format::s16(), Format::s24_3(), Format::s24(), Format::s32()]
   (main.rs line 29). -/
def FORMATS : List Format := [Format.s16, Format.s24_3, Format.s24, Format.s32]

inductive Direction where
  | playback
  | capture
deriving DecidableEq

def MIN_RATE : Nat := 3000

def MAX_RATE : Nat := 768000

def US_PER_MS : Nat := 1000

def PERIODS_PER_BUFFER : Nat := 5

def MIN_BUFFER_TIME_US : Nat := 1000

def MAX_BUFFER_TIME_US : Nat := 1000000

def U32_MAX : Nat := 4294967295

/- rates and channels are built with Vec::with_capacity(100) and the scan
   compares len() against capacity() (main.rs lines 514-515, 554, 590). -/
def VEC_CAPACITY : Nat := 100

/- struct ValidConfiguration (main.rs lines 285-298).  buffer_time_range is a
   RangeInclusive<u32>; it is modelled as the pair (start, end). -/
structure ValidConfiguration where
  name : String
  description : String
  direction : Direction
  card_name : String
  device_number : Nat
  sub_device_number : Nat
  format : Format
  rate : Nat
  channels : Nat
  buffer_time_ms : Nat
  buffer_time_range : Nat × Nat
deriving DecidableEq

/- struct AlsaPcm (main.rs lines 494-506). -/
structure AlsaPcm where
  name : String
  description : String
  direction : Direction
  card_name : String
  device_number : Nat
  sub_device_number : Nat
  formats : List Format
  rates : List Nat
  channels : List Nat
  valid_configurations : List ValidConfiguration
deriving DecidableEq

/- Oracle for ValidConfiguration::get_buffer_time_range (main.rs lines 336-411).
   openOk: PCM::new and HwParams::any both succeed.
   resampleOk: set_rate_resample(false) is Ok, get_rate_resample is Ok and false.
   applyFormat / applyRate / applyChannels: the set_* call is Ok, the get_* call
   is Ok and the read-back equals the requested value.
   getBufMin / getBufMax: result of get_buffer_time_min / get_buffer_time_max. -/
structure BufRangeEnv where
  openOk : Bool
  resampleOk : Bool
  applyFormat : Format → Bool
  applyRate : Format → Nat → Bool
  applyChannels : Format → Nat → Nat → Bool
  getBufMin : Option Nat
  getBufMax : Option Nat

/- ValidConfiguration::get_buffer_time_range (main.rs lines 336-411).
   Each early `return (MIN_BUFFER_TIME_US, MAX_BUFFER_TIME_US)` of the source
   is one of the default branches below. -/
def get_buffer_time_range (env : BufRangeEnv) (format : Format) (rate channels : Nat) :
    Nat × Nat :=
  if env.openOk then
    if !env.resampleOk then (MIN_BUFFER_TIME_US, MAX_BUFFER_TIME_US)
    else if !env.applyFormat format then (MIN_BUFFER_TIME_US, MAX_BUFFER_TIME_US)
    else if !env.applyRate format rate then (MIN_BUFFER_TIME_US, MAX_BUFFER_TIME_US)
    else if !env.applyChannels format rate channels then
      (MIN_BUFFER_TIME_US, MAX_BUFFER_TIME_US)
    else
      (match env.getBufMin with
        | none => MIN_BUFFER_TIME_US
        | some m => max (m / US_PER_MS * US_PER_MS) MIN_BUFFER_TIME_US,
       match env.getBufMax with
        | none => MAX_BUFFER_TIME_US
        | some m => min (m / US_PER_MS * US_PER_MS) MAX_BUFFER_TIME_US)
  else (MIN_BUFFER_TIME_US, MAX_BUFFER_TIME_US)

/- ValidConfiguration::new (main.rs lines 300-320). -/
def ValidConfiguration.new (env : BufRangeEnv) (pcm : AlsaPcm) (format : Format)
    (rate channels : Nat) : ValidConfiguration :=
  let r := get_buffer_time_range env format rate channels
  let fallback_buffer_time_ms := max (r.2 / 2) r.1 / US_PER_MS
  { name := pcm.name
    description := pcm.description
    direction := pcm.direction
    card_name := pcm.card_name
    device_number := pcm.device_number
    sub_device_number := pcm.sub_device_number
    format := format
    rate := rate
    channels := channels
    buffer_time_ms := fallback_buffer_time_ms
    buffer_time_range := r }

/- Oracle for AlsaPcm::test_params (main.rs lines 670-740), with the same
   per-call reading as BufRangeEnv.  commit is pcm.hw_params(&hwp).is_ok()
   applied to whatever combination was set before it. -/
structure TrialEnv where
  openOk : Bool
  resampleOk : Bool
  acceptFormat : Format → Bool
  acceptRate : Format → Nat → Bool
  acceptChannels : Format → Option Nat → Nat → Bool
  commit : Format → Option Nat → Option Nat → Bool

/- AlsaPcm::test_params (main.rs lines 670-740).  rate and channels are
   Option, exactly as in the source; a `None` skips that trial step. -/
def AlsaPcm.test_params (env : TrialEnv) (format : Format) (rate channels : Option Nat) :
    Bool :=
  if env.openOk then
    if !env.resampleOk then false
    else if !env.acceptFormat format then false
    else if !(match rate with
        | none => true
        | some r => env.acceptRate format r) then false
    else if !(match channels with
        | none => true
        | some c => env.acceptChannels format rate c) then false
    else env.commit format rate channels
  else false

/- AlsaPcm::get_valid_configurations (main.rs lines 742-775): the three nested
   for loops, each guarded by a test_params call, pushing one configuration per
   surviving (format, rate, channels). -/
def AlsaPcm.get_valid_configurations (tEnv : TrialEnv) (bEnv : BufRangeEnv) (pcm : AlsaPcm) :
    List ValidConfiguration :=
  (pcm.formats.filter (fun format => AlsaPcm.test_params tEnv format none none)).flatMap
    (fun format =>
      (pcm.rates.filter (fun rate => AlsaPcm.test_params tEnv format (some rate) none)).flatMap
        (fun rate =>
          (pcm.channels.filter
              (fun channels => AlsaPcm.test_params tEnv format (some rate) (some channels))).map
            (fun channels => ValidConfiguration.new bEnv pcm format rate channels)))

/- Oracle for the capability scan inside AlsaPcm::new (main.rs lines 509-623).
   infoName / device / subdevice model pcm.info(); resampleSetOk models
   set_rate_resample(false).is_ok() (no read-back there, unlike test_params);
   testFormat / testRate / testChannels model hwp.test_*(..).is_ok(); the
   rateMin/rateMax and chMin/chMax fields model the get_*_min/max queries. -/
structure ProbeEnv where
  openOk : Bool
  infoOk : Bool
  infoName : Option String
  device : Nat
  subdevice : Nat
  hwpOk : Bool
  resampleSetOk : Bool
  testFormat : Format → Bool
  rateMin : Option Nat
  rateMax : Option Nat
  testRate : Nat → Bool
  chMin : Option Nat
  chMax : Option Nat
  testChannels : Nat → Bool

/- The inclusive range lo..=hi as a list. -/
def rangeIncl (lo hi : Nat) : List Nat := List.range' lo (hi + 1 - lo) 1

/- min_rate..=max_rate of the rate scan (main.rs lines 549-552). -/
def rateCandidates (env : ProbeEnv) : List Nat :=
  rangeIncl (max (env.rateMin.getD MIN_RATE) MIN_RATE)
    (min (env.rateMax.getD MAX_RATE) MAX_RATE)

/- min_channels..=max_channels of the channel scan (main.rs lines 585-588).
   Note the source clamps the maximum only from below (`.max(1)`). -/
def chanCandidates (env : ProbeEnv) : List Nat :=
  rangeIncl (max (env.chMin.getD 1) 1) (max (env.chMax.getD U32_MAX) 1)

/- The capped linear scan of main.rs lines 552-583 (rates) and 588-619
   (channels): accepted values are pushed while len() != capacity();
   an accepted value found when the accumulator is full makes the whole
   constructor return None, modelled here as `none`. -/
def scanAccepted (accepts : Nat → Bool) (cap : Nat) (acc : List Nat) :
    List Nat → Option (List Nat)
  | [] => some acc
  | v :: rest =>
    if accepts v then
      if acc.length ≠ cap then scanAccepted accepts cap (acc ++ [v]) rest
      else none
    else scanAccepted accepts cap acc rest

/- The format loop of main.rs lines 525-529: each element of FORMATS is tried
   with hwp.test_format on the one shared HwParams object and pushed if
   accepted. -/
def probeFormats (accepts : Format → Bool) : List Format := FORMATS.filter accepts

/- First half of AlsaPcm::new (main.rs lines 509-636): the capability scan,
   up to and including the construction of the pre-search AlsaPcm value.
   `none` models the three early `return None` sites (no supported format,
   rate ceiling reached, channel ceiling reached).  When PCM::new, pcm.info(),
   HwParams::any or set_rate_resample fails, the scan is skipped and the
   capability lists stay empty, exactly as in the source. -/
def AlsaPcm.probe (env : ProbeEnv) (name card_name : String) (direction : Direction) :
    Option AlsaPcm :=
  let info :=
    if env.openOk && env.infoOk then (env.infoName.getD "NONE", env.device, env.subdevice)
    else ("", 0, 0)
  if env.openOk && env.infoOk && env.hwpOk && env.resampleSetOk then
    let formats := probeFormats env.testFormat
    if formats.isEmpty then none
    else
      match scanAccepted env.testRate VEC_CAPACITY [] (rateCandidates env) with
      | none => none
      | some rates =>
        match scanAccepted env.testChannels VEC_CAPACITY [] (chanCandidates env) with
        | none => none
        | some channels =>
          some { name := name, description := info.1, direction := direction,
                 card_name := card_name, device_number := info.2.1,
                 sub_device_number := info.2.2, formats := formats, rates := rates,
                 channels := channels, valid_configurations := [] }
  else
    some { name := name, description := info.1, direction := direction,
           card_name := card_name, device_number := info.2.1,
           sub_device_number := info.2.2, formats := [], rates := [],
           channels := [], valid_configurations := [] }

/- AlsaPcm::new (main.rs lines 509-668): capability scan, configuration
   search, the empty-search early None (lines 640-648), and the retain calls
   that drop formats / rates / channels never used by a valid configuration
   (lines 650-666). -/
def AlsaPcm.new (pEnv : ProbeEnv) (tEnv : TrialEnv) (bEnv : BufRangeEnv)
    (name card_name : String) (direction : Direction) : Option AlsaPcm :=
  match AlsaPcm.probe pEnv name card_name direction with
  | none => none
  | some pcm0 =>
    let valid_configs := AlsaPcm.get_valid_configurations tEnv bEnv pcm0
    if valid_configs.isEmpty then none
    else
      some { pcm0 with
        formats := pcm0.formats.filter
          (fun format => valid_configs.any (fun config => decide (config.format = format))),
        rates := pcm0.rates.filter
          (fun rate => valid_configs.any (fun config => decide (config.rate = rate))),
        channels := pcm0.channels.filter
          (fun channels => valid_configs.any (fun config => decide (config.channels = channels))),
        valid_configurations := valid_configs }

/- Oracle for ValidConfiguration::test_buffer_times (main.rs lines 413-491).
   setBufferTimeNear / setPeriodTimeNear return the actual value chosen by
   set_buffer_time_near / set_period_time_near, or none on failure;
   commit models pcm.hw_params(&hwp).is_ok(). -/
structure BufTestEnv where
  openOk : Bool
  resampleOk : Bool
  applyFormat : Format → Bool
  applyRate : Format → Nat → Bool
  applyChannels : Format → Nat → Nat → Bool
  setBufferTimeNear : Nat → Option Nat
  setPeriodTimeNear : Nat → Option Nat
  commit : Nat → Nat → Bool

/- ValidConfiguration::test_buffer_times (main.rs lines 413-491).  The source
   takes &mut self but never assigns to any field; the returned configuration
   is therefore the input one unchanged. -/
def ValidConfiguration.test_buffer_times (cfg : ValidConfiguration) (env : BufTestEnv)
    (buffer_time period_time : Nat) : Bool × ValidConfiguration :=
  (if env.openOk then
    if !env.resampleOk then false
    else if !env.applyFormat cfg.format then false
    else if !env.applyRate cfg.format cfg.rate then false
    else if !env.applyChannels cfg.format cfg.rate cfg.channels then false
    else
      match env.setBufferTimeNear buffer_time with
      | none => false
      | some actual_buffer_time =>
        if actual_buffer_time ≠ buffer_time then false
        else
          match env.setPeriodTimeNear period_time with
          | none => false
          | some actual_period_time =>
            if actual_period_time ≠ period_time then false
            else env.commit buffer_time period_time
  else false, cfg)

/- self.buffer_time_range.clone().step_by(US_PER_MS as usize)
   (main.rs line 325): lo, lo + 1000, lo + 2000, ... while ≤ hi. -/
def stepCandidates (lo hi : Nat) : List Nat :=
  if lo ≤ hi then List.range' lo ((hi - lo) / US_PER_MS + 1) US_PER_MS else []

/- The body of the loop in ValidConfiguration::get_buffer_times_ms
   (main.rs lines 325-331): derive the period time, run test_buffer_times on
   the threaded configuration, and push the millisecond value on success. -/
def bufStep (env : BufTestEnv) (acc : List Nat × ValidConfiguration) (buffer_time : Nat) :
    List Nat × ValidConfiguration :=
  let period_time := buffer_time / PERIODS_PER_BUFFER
  let r := ValidConfiguration.test_buffer_times acc.2 env buffer_time period_time
  (if r.1 then acc.1 ++ [buffer_time / US_PER_MS] else acc.1, r.2)

/- ValidConfiguration::get_buffer_times_ms (main.rs lines 322-334).  The
   source takes &mut self (because test_buffer_times does); the configuration
   is threaded through the loop and returned alongside the collected list. -/
def ValidConfiguration.get_buffer_times_ms (cfg : ValidConfiguration) (env : BufTestEnv) :
    List Nat × ValidConfiguration :=
  (stepCandidates cfg.buffer_time_range.1 cfg.buffer_time_range.2).foldl
    (bufStep env) ([], cfg)

/- str::find modelled on the character list of the name: index of the first
   character satisfying p, if any. -/
def findIndex (p : Char → Bool) : List Char → Option Nat
  | [] => none
  | ch :: rest => if p ch then some 0 else (findIndex p rest).map (· + 1)

/- str::trim on a character list (leading and trailing whitespace removed). -/
def trimChars (l : List Char) : List Char :=
  ((l.dropWhile Char.isWhitespace).reverse.dropWhile Char.isWhitespace).reverse

/- The card-key derivation of ThreadManager::add_job (main.rs lines 139-142):
   name[name.find('=').unwrap_or(0)..name.find(',').unwrap_or(name.len())]
     .replace('=', "").trim().
   A Rust slice with start > end panics; that case is modelled as `none`. -/
def cardKey (name : List Char) : Option (List Char) :=
  let start := (findIndex (fun ch => decide (ch = '=')) name).getD 0
  let stop := (findIndex (fun ch => decide (ch = ',')) name).getD name.length
  if start ≤ stop then
    some (trimChars (((name.drop start).take (stop - start)).filter
      (fun ch => decide (ch ≠ '='))))
  else none

/- struct ThreadWorker (main.rs lines 185-190), reduced to what the dispatcher
   invariant is about: its card key and whether its job channel still accepts
   jobs (ThreadWorker::add_job returns sender.send(job).is_ok()). -/
structure ThreadWorker where
  card_name : String
  alive : Bool

/- struct ThreadManager (main.rs lines 123-126). -/
structure ThreadManager where
  workers : List ThreadWorker

def ThreadManager.new : ThreadManager := { workers := [] }

/- The for loop of ThreadManager::add_job (main.rs lines 147-152): visits
   every worker; on each key match, job_sent is set to the send result and
   bad_worker to its negation.  Sending to a live worker succeeds. -/
def sendLoop (workers : List ThreadWorker) (card_name : String) : Bool × Bool :=
  workers.foldl
    (fun acc w => if w.card_name = card_name then (w.alive, !w.alive) else acc)
    (false, false)

/- ThreadManager::add_job after the card-key derivation (main.rs lines
   144-165): the send loop, the retain dropping the bad worker, and the spawn
   of a fresh worker when no existing one took the job.  A freshly spawned
   worker's channel is open, so its add_job succeeds and it is pushed. -/
def ThreadManager.addJobKey (tm : ThreadManager) (card_name : String) : ThreadManager :=
  let sent_bad := sendLoop tm.workers card_name
  let workers1 :=
    if sent_bad.2 then tm.workers.filter (fun w => decide (w.card_name ≠ card_name))
    else tm.workers
  if !sent_bad.1 then { workers := workers1 ++ [{ card_name := card_name, alive := true }] }
  else { workers := workers1 }

/- ThreadManager::add_job (main.rs lines 138-166).  `none` models the panic
   of the card-key slice. -/
def ThreadManager.add_job (tm : ThreadManager) (name : List Char) : Option ThreadManager :=
  (cardKey name).map (fun key => tm.addJobKey (String.mk key))

/- One event of a discovery pass as seen by the dispatcher: either an add_job
   call, or a worker thread terminating on its own (its channel then refuses
   further jobs). -/
inductive ManagerStep where
  | job (name : List Char)
  | crash (i : Nat)

def crashWorker (tm : ThreadManager) (i : Nat) : ThreadManager :=
  match tm.workers[i]? with
  | none => tm
  | some w => { workers := tm.workers.set i { card_name := w.card_name, alive := false } }

def applyStep (tm : ThreadManager) : ManagerStep → ThreadManager
  | ManagerStep.job name => (tm.add_job name).getD tm
  | ManagerStep.crash i => crashWorker tm i

def runManager (steps : List ManagerStep) : ThreadManager :=
  steps.foldl applyStep ThreadManager.new

/- The reading of get_buffer_time_range asserted by the specification: the
   full default window on any failure including a failing bounds query, the
   minimum rounded down and the maximum rounded UP to a whole millisecond
   otherwise.  Kept for comparison with the source function. -/
def bufferRangeClaim (env : BufRangeEnv) (format : Format) (rate channels : Nat) :
    Nat × Nat :=
  if env.openOk && env.resampleOk && env.applyFormat format && env.applyRate format rate &&
      env.applyChannels format rate channels && env.getBufMin.isSome &&
      env.getBufMax.isSome then
    (max (env.getBufMin.getD 0 / US_PER_MS * US_PER_MS) MIN_BUFFER_TIME_US,
     min ((env.getBufMax.getD 0 + (US_PER_MS - 1)) / US_PER_MS * US_PER_MS)
       MAX_BUFFER_TIME_US)
  else (MIN_BUFFER_TIME_US, MAX_BUFFER_TIME_US)

/- What get_buffer_time_range actually computes, bound by bound: the default
   window when the session or any parameter application fails; otherwise each
   queried bound falls back to its own default on a failing query, and both
   bounds are rounded DOWN to a whole millisecond, the minimum clamped up to
   MIN_BUFFER_TIME_US and the maximum clamped down to MAX_BUFFER_TIME_US. -/
def bufferRangeAmended (env : BufRangeEnv) (format : Format) (rate channels : Nat) :
    Nat × Nat :=
  if env.openOk && env.resampleOk && env.applyFormat format && env.applyRate format rate &&
      env.applyChannels format rate channels then
    ((match env.getBufMin with
      | none => MIN_BUFFER_TIME_US
      | some m => max (m / US_PER_MS * US_PER_MS) MIN_BUFFER_TIME_US),
     (match env.getBufMax with
      | none => MAX_BUFFER_TIME_US
      | some m => min (m / US_PER_MS * US_PER_MS) MAX_BUFFER_TIME_US))
  else (MIN_BUFFER_TIME_US, MAX_BUFFER_TIME_US)

/- Concrete oracles used by the witnesses and counterexamples below. -/

/- A device accepting only S16 at 44100 Hz with 2 channels, with narrow
   reported bounds so that each linear scan visits exactly one value. -/
def pEnvW : ProbeEnv :=
  { openOk := true, infoOk := true, infoName := some "card", device := 0, subdevice := 0,
    hwpOk := true, resampleSetOk := true,
    testFormat := fun f => decide (f = Format.s16),
    rateMin := some 44100, rateMax := some 44100, testRate := fun _ => true,
    chMin := some 2, chMax := some 2, testChannels := fun _ => true }

/- A trial oracle whose session open always fails: every test_params call
   returns false, so the configuration search finds nothing. -/
def tEnvReject : TrialEnv :=
  { openOk := false, resampleOk := true, acceptFormat := fun _ => true,
    acceptRate := fun _ _ => true, acceptChannels := fun _ _ _ => true,
    commit := fun _ _ _ => true }

/- A trial oracle that accepts every combination. -/
def tEnvAll : TrialEnv :=
  { openOk := true, resampleOk := true, acceptFormat := fun _ => true,
    acceptRate := fun _ _ => true, acceptChannels := fun _ _ _ => true,
    commit := fun _ _ _ => true }

/- A buffer-range oracle answering the full window. -/
def bEnvW : BufRangeEnv :=
  { openOk := true, resampleOk := true, applyFormat := fun _ => true,
    applyRate := fun _ _ => true, applyChannels := fun _ _ _ => true,
    getBufMin := some 1000, getBufMax := some 1000000 }

/- What AlsaPcm.probe pEnvW yields. -/
def pcm0W : AlsaPcm :=
  { name := "hw:0", description := "card", direction := Direction.playback,
    card_name := "0", device_number := 0, sub_device_number := 0,
    formats := [Format.s16], rates := [44100], channels := [2],
    valid_configurations := [] }

/- The single configuration the search finds for pcm0W under tEnvAll/bEnvW. -/
def cfgW : ValidConfiguration :=
  { name := "hw:0", description := "card", direction := Direction.playback,
    card_name := "0", device_number := 0, sub_device_number := 0,
    format := Format.s16, rate := 44100, channels := 2,
    buffer_time_ms := 500, buffer_time_range := (1000, 1000000) }

/- What AlsaPcm.new pEnvW tEnvAll bEnvW yields. -/
def pcmW : AlsaPcm :=
  { name := "hw:0", description := "card", direction := Direction.playback,
    card_name := "0", device_number := 0, sub_device_number := 0,
    formats := [Format.s16], rates := [44100], channels := [2],
    valid_configurations := [cfgW] }

/- The mock backend of the spec's search scenario: exactly S16, rates 44100
   and 48000, 2 channels; every other probe fails. -/
def tEnvMock : TrialEnv :=
  { openOk := true, resampleOk := true,
    acceptFormat := fun f => decide (f = Format.s16),
    acceptRate := fun _ r => decide (r = 44100) || decide (r = 48000),
    acceptChannels := fun _ _ c => decide (c = 2),
    commit := fun _ _ _ => true }

/- Candidate lists for the mock search, containing the accepted values among
   others. -/
def pcmMock : AlsaPcm :=
  { name := "hw:1", description := "mock", direction := Direction.playback,
    card_name := "1", device_number := 0, sub_device_number := 0,
    formats := [Format.s16, Format.s24], rates := [8000, 44100, 48000],
    channels := [1, 2], valid_configurations := [] }

/- A plug-style device: every rate in the (deliberately narrow) reported
   range 3000..=3101 is accepted, so the linear scan finds a 101st accepted
   rate and hits the ceiling. -/
def pEnvFake : ProbeEnv :=
  { openOk := true, infoOk := true, infoName := some "fake", device := 0, subdevice := 0,
    hwpOk := true, resampleSetOk := true, testFormat := fun _ => true,
    rateMin := some 3000, rateMax := some 3101, testRate := fun _ => true,
    chMin := some 2, chMax := some 2, testChannels := fun _ => true }

/- A buffer-range oracle on which every query succeeds, with a minimum bound
   of 2500 us and a maximum bound of 1500 us: the source rounds the maximum
   down to 1000 us where the specification's reading rounds it up to 2000 us. -/
def bEnvRound : BufRangeEnv :=
  { openOk := true, resampleOk := true, applyFormat := fun _ => true,
    applyRate := fun _ _ => true, applyChannels := fun _ _ _ => true,
    getBufMin := some 2500, getBufMax := some 1500 }

/- ===================== helper lemmas ===================== -/

theorem test_buffer_times_snd (cfg : ValidConfiguration) (env : BufTestEnv)
    (bt pt : Nat) : (cfg.test_buffer_times env bt pt).2 = cfg := rfl

theorem get_buffer_times_ms_eq (cfg : ValidConfiguration) (env : BufTestEnv) :
    cfg.get_buffer_times_ms env =
      (((stepCandidates cfg.buffer_time_range.1 cfg.buffer_time_range.2).filter
          (fun bt => (cfg.test_buffer_times env bt (bt / PERIODS_PER_BUFFER)).1)).map
        (fun bt => bt / US_PER_MS), cfg) := by
  have aux : ∀ (l : List Nat) (acc : List Nat),
      l.foldl (bufStep env) (acc, cfg) =
      (acc ++ (l.filter
          (fun bt => (cfg.test_buffer_times env bt (bt / PERIODS_PER_BUFFER)).1)).map
        (fun bt => bt / US_PER_MS), cfg) := by
    intro l
    induction l with
    | nil => intro acc; simp
    | cons b rest ih =>
      intro acc
      rw [List.foldl_cons, List.filter_cons]
      have hstep : bufStep env (acc, cfg) b =
          (if (cfg.test_buffer_times env b (b / PERIODS_PER_BUFFER)).1 then
            acc ++ [b / US_PER_MS] else acc, cfg) := rfl
      rw [hstep]
      cases hb : (cfg.test_buffer_times env b (b / PERIODS_PER_BUFFER)).1 with
      | true =>
        simp only [if_true]
        rw [ih]
        simp
      | false =>
        simp only [Bool.false_eq_true, if_false]
        rw [ih]
  unfold ValidConfiguration.get_buffer_times_ms
  rw [aux]
  simp

theorem pairwise_add_le_range' (s n step : Nat) :
    (List.range' s n step).Pairwise (fun a b => a + step ≤ b) := by
  induction n generalizing s with
  | zero => exact List.Pairwise.nil
  | succ n ih =>
    rw [List.range'_succ]
    refine List.Pairwise.cons ?_ (ih (s + step))
    intro b hb
    rw [List.mem_range'] at hb
    obtain ⟨i, hi, rfl⟩ := hb
    omega

theorem mem_stepCandidates {lo hi bt : Nat} (h : bt ∈ stepCandidates lo hi) :
    lo ≤ bt ∧ bt ≤ hi := by
  unfold stepCandidates at h
  split at h
  case isTrue hlh =>
    rw [List.mem_range'] at h
    obtain ⟨i, hi2, rfl⟩ := h
    have hstep : US_PER_MS * i ≤ hi - lo := by
      have hdm : (hi - lo) / US_PER_MS * US_PER_MS ≤ hi - lo :=
        Nat.div_mul_le_self _ _
      have hile : i ≤ (hi - lo) / US_PER_MS := by omega
      calc US_PER_MS * i ≤ US_PER_MS * ((hi - lo) / US_PER_MS) :=
            Nat.mul_le_mul_left _ hile
        _ = (hi - lo) / US_PER_MS * US_PER_MS := Nat.mul_comm _ _
        _ ≤ hi - lo := hdm
    omega
  case isFalse hf => cases h

theorem pairwise_stepCandidates (lo hi : Nat) :
    (stepCandidates lo hi).Pairwise (fun a b => a + US_PER_MS ≤ b) := by
  unfold stepCandidates
  split
  · exact pairwise_add_le_range' _ _ _
  · exact List.Pairwise.nil

/- ===================== C10 ===================== -/

/-- C10: get_buffer_times_ms leaves every field of the configuration
unchanged — name, description, direction, card_name, device_number,
sub_device_number, format, rate, channels, buffer_time_ms and
buffer_time_range all equal their values before the call, for every
configuration and every backend behaviour. -/
theorem c10_get_buffer_times_ms_frame (env : BufTestEnv) (cfg : ValidConfiguration) :
    (cfg.get_buffer_times_ms env).2.name = cfg.name ∧
    (cfg.get_buffer_times_ms env).2.description = cfg.description ∧
    (cfg.get_buffer_times_ms env).2.direction = cfg.direction ∧
    (cfg.get_buffer_times_ms env).2.card_name = cfg.card_name ∧
    (cfg.get_buffer_times_ms env).2.device_number = cfg.device_number ∧
    (cfg.get_buffer_times_ms env).2.sub_device_number = cfg.sub_device_number ∧
    (cfg.get_buffer_times_ms env).2.format = cfg.format ∧
    (cfg.get_buffer_times_ms env).2.rate = cfg.rate ∧
    (cfg.get_buffer_times_ms env).2.channels = cfg.channels ∧
    (cfg.get_buffer_times_ms env).2.buffer_time_ms = cfg.buffer_time_ms ∧
    (cfg.get_buffer_times_ms env).2.buffer_time_range = cfg.buffer_time_range := by
  have h : (cfg.get_buffer_times_ms env).2 = cfg := by
    rw [get_buffer_times_ms_eq]
  simp [h]

/- ===================== C9 ===================== -/

/-- C9: the list returned by get_buffer_times_ms is strictly increasing,
has no duplicates, and every element lies between the buffer-time-range
start divided by 1000 and the range end divided by 1000, inclusive. -/
theorem c9_buffer_times_sorted_bounded (env : BufTestEnv) (cfg : ValidConfiguration) :
    (cfg.get_buffer_times_ms env).1.Pairwise (fun a b => a < b) ∧
    (cfg.get_buffer_times_ms env).1.Nodup ∧
    ∀ x ∈ (cfg.get_buffer_times_ms env).1,
      cfg.buffer_time_range.1 / US_PER_MS ≤ x ∧ x ≤ cfg.buffer_time_range.2 / US_PER_MS := by
  rw [get_buffer_times_ms_eq]
  have hpw : ((stepCandidates cfg.buffer_time_range.1 cfg.buffer_time_range.2).filter
      (fun bt => (cfg.test_buffer_times env bt (bt / PERIODS_PER_BUFFER)).1)).Pairwise
      (fun a b => a + US_PER_MS ≤ b) :=
    (pairwise_stepCandidates _ _).filter _
  have hlt : (((stepCandidates cfg.buffer_time_range.1 cfg.buffer_time_range.2).filter
      (fun bt => (cfg.test_buffer_times env bt (bt / PERIODS_PER_BUFFER)).1)).map
      (fun bt => bt / US_PER_MS)).Pairwise (fun a b => a < b) := by
    refine hpw.map _ ?_
    intro a b hab
    have h1 : (a + US_PER_MS) / US_PER_MS = a / US_PER_MS + 1 :=
      Nat.add_div_right a (by norm_num [US_PER_MS])
    have h2 : (a + US_PER_MS) / US_PER_MS ≤ b / US_PER_MS := Nat.div_le_div_right hab
    omega
  refine ⟨hlt, hlt.imp (fun hab => Nat.ne_of_lt hab), ?_⟩
  intro x hx
  rw [List.mem_map] at hx
  obtain ⟨bt, hbt, rfl⟩ := hx
  have hmem := mem_stepCandidates (List.mem_filter.mp hbt).1
  exact ⟨Nat.div_le_div_right hmem.1, Nat.div_le_div_right hmem.2⟩

/- ===================== C8 ===================== -/

/-- C8: if the configuration search yields zero ValidConfigurations then
AlsaPcm::new returns None (the endpoint is dropped, no error is
propagated). -/
theorem c8_zero_configurations_returns_none (pEnv : ProbeEnv) (tEnv : TrialEnv)
    (bEnv : BufRangeEnv) (name card_name : String) (direction : Direction)
    (pcm0 : AlsaPcm) (hp : AlsaPcm.probe pEnv name card_name direction = some pcm0)
    (hc : AlsaPcm.get_valid_configurations tEnv bEnv pcm0 = []) :
    AlsaPcm.new pEnv tEnv bEnv name card_name direction = none := by
  unfold AlsaPcm.new
  rw [hp]
  simp [hc]

/-- Witness for C8: a concrete device whose probe succeeds but whose trial
oracle rejects everything; the endpoint is dropped. -/
theorem c8_witness :
    AlsaPcm.new pEnvW tEnvReject bEnvW "hw:0" "0" Direction.playback = none :=
  c8_zero_configurations_returns_none pEnvW tEnvReject bEnvW "hw:0" "0"
    Direction.playback pcm0W (by decide) (by decide)

/- ===================== C5 ===================== -/

/-- Counterexample for C5: on a backend where every query succeeds with a
minimum bound of 2500 us and a maximum bound of 1500 us, the code returns
(2000, 1000) — the maximum rounded DOWN to a whole millisecond — while the
claim's reading (bufferRangeClaim) returns (2000, 2000) with the maximum
rounded up. -/
theorem c5_counterexample_rounding :
    get_buffer_time_range bEnvRound Format.s16 44100 2 ≠
      bufferRangeClaim bEnvRound Format.s16 44100 2 := by
  decide

/-- C5 amended: get_buffer_time_range returns the default window exactly
when the session open, the resample setting or a parameter re-application
fails; a failing bounds query falls back to that bound's default only, and
both queried bounds are rounded DOWN to a whole millisecond, the minimum
clamped up to 1000 us and the maximum clamped down to 1000000 us. -/
theorem c5_amended_buffer_time_range (env : BufRangeEnv) (format : Format)
    (rate channels : Nat) :
    get_buffer_time_range env format rate channels =
      bufferRangeAmended env format rate channels := by
  unfold get_buffer_time_range bufferRangeAmended
  cases h1 : env.openOk <;> cases h2 : env.resampleOk <;>
    cases h3 : env.applyFormat format <;> cases h4 : env.applyRate format rate <;>
    cases h5 : env.applyChannels format rate channels <;> simp

/- ===================== C6 ===================== -/

/-- Counterexample for C6: with a backend that accepts every format,
unsigned 8-bit is still absent from the probed format set — the source's
FORMATS candidate list does not contain it. -/
theorem c6_counterexample_u8_not_probed :
    Format.u8 ∉ probeFormats (fun _ => true) := by
  decide

/-- C6 amended: the format phase tests exactly the fixed candidate list
FORMATS = [S16, S24_3, S24, S32] (unsigned 8-bit is not probed, and all
formats are tried on the one shared parameter object rather than a fresh
session each); whenever the probe prefix succeeded, the endpoint's
pre-search format set is exactly the accepted members of FORMATS. -/
theorem c6_amended_format_phase (pEnv : ProbeEnv) (name card_name : String)
    (direction : Direction) (pcm0 : AlsaPcm)
    (h : AlsaPcm.probe pEnv name card_name direction = some pcm0) :
    Format.u8 ∉ pcm0.formats ∧
    (∀ f ∈ pcm0.formats, f ∈ FORMATS ∧ pEnv.testFormat f = true) ∧
    ((pEnv.openOk && pEnv.infoOk && pEnv.hwpOk && pEnv.resampleSetOk) = true →
      pcm0.formats = probeFormats pEnv.testFormat) := by
  unfold AlsaPcm.probe at h
  by_cases hc : (pEnv.openOk && pEnv.infoOk && pEnv.hwpOk && pEnv.resampleSetOk) = true
  · rw [if_pos hc] at h
    by_cases hemp : (probeFormats pEnv.testFormat).isEmpty
    · simp [hemp] at h
    · simp only [hemp, if_false, Bool.false_eq_true] at h
      cases hr : scanAccepted pEnv.testRate VEC_CAPACITY [] (rateCandidates pEnv) with
      | none => rw [hr] at h; cases h
      | some rates =>
        rw [hr] at h
        cases hch : scanAccepted pEnv.testChannels VEC_CAPACITY [] (chanCandidates pEnv) with
        | none => rw [hch] at h; cases h
        | some chans =>
          rw [hch] at h
          injection h with h
          subst h
          refine ⟨?_, ?_, fun _ => rfl⟩
          · intro hu8
            have := (List.mem_filter.mp hu8).1
            simp [FORMATS] at this
          · intro f hf
            exact ⟨(List.mem_filter.mp hf).1, (List.mem_filter.mp hf).2⟩
  · rw [if_neg hc] at h
    injection h with h
    subst h
    refine ⟨by simp, by simp, fun hcon => absurd hcon hc⟩

/-- Witness for C6 amended: the probe of the concrete device pEnvW, whose
format set is [S16]. -/
theorem c6_witness :
    Format.u8 ∉ pcm0W.formats ∧
    (∀ f ∈ pcm0W.formats, f ∈ FORMATS ∧ pEnvW.testFormat f = true) ∧
    ((pEnvW.openOk && pEnvW.infoOk && pEnvW.hwpOk && pEnvW.resampleSetOk) = true →
      pcm0W.formats = probeFormats pEnvW.testFormat) :=
  c6_amended_format_phase pEnvW "hw:0" "0" Direction.playback pcm0W (by decide)

/- ===================== C7 ===================== -/

theorem findIndex_lt_length {p : Char → Bool} :
    ∀ {l : List Char} {i : Nat}, findIndex p l = some i → i < l.length := by
  intro l
  induction l with
  | nil => intro i h; simp [findIndex] at h
  | cons ch rest ih =>
    intro i h
    rw [findIndex] at h
    split at h
    · injection h with h
      simp [← h]
    · cases hr : findIndex p rest with
      | none => rw [hr] at h; cases h
      | some j =>
        rw [hr] at h
        simp only [Option.map_some'] at h
        injection h with h
        have := ih hr
        simp only [List.length_cons]
        omega

/-- Counterexample for C7: on the name "a,b=c", where the first ',' precedes
the first '=', the slice bounds are 3..1 and the Rust code panics; the
derivation is not defined there (modelled as none). -/
theorem c7_counterexample_comma_before_equals :
    cardKey ['a', ',', 'b', '=', 'c'] = none := by
  decide

/-- C7 amended: the card-key derivation is defined for exactly those names
in which the first ',' does not strictly precede the first '='; when both
characters occur with the first ',' strictly before the first '=' the slice
has start > end and the code panics (modelled as none). -/
theorem c7_amended_card_key_definedness (name : List Char) :
    cardKey name = none ↔
      ∃ i j, findIndex (fun ch => decide (ch = ',')) name = some i ∧
        findIndex (fun ch => decide (ch = '=')) name = some j ∧ i < j := by
  unfold cardKey
  cases heq : findIndex (fun ch => decide (ch = '=')) name with
  | none =>
    rw [if_pos]
    · simp [heq]
    · simp [heq]
  | some j =>
    cases hcm : findIndex (fun ch => decide (ch = ',')) name with
    | none =>
      have hjl : j < name.length := findIndex_lt_length heq
      rw [if_pos]
      · simp [heq, hcm]
      · simp only [heq, hcm, Option.getD_some, Option.getD_none]
        omega
    | some i =>
      by_cases hji : j ≤ i
      · rw [if_pos]
        · simp only [heq, hcm, Option.getD_some]
          constructor
          · intro habs; cases habs
          · rintro ⟨i2, j2, hi2, hj2, hlt⟩
            injection hi2 with hi2
            injection hj2 with hj2
            omega
        · simp only [heq, hcm, Option.getD_some]
          omega
      · rw [if_neg]
        · simp only [heq, hcm, Option.getD_some]
          constructor
          · intro _
            refine ⟨i, j, rfl, rfl, by omega⟩
          · intro _; trivial
        · simp only [heq, hcm, Option.getD_some]
          omega

/- ===================== C3 ===================== -/

theorem get_valid_configurations_formats_nil (tEnv : TrialEnv) (bEnv : BufRangeEnv)
    (pcm : AlsaPcm) (h : pcm.formats = []) :
    AlsaPcm.get_valid_configurations tEnv bEnv pcm = [] := by
  unfold AlsaPcm.get_valid_configurations
  rw [h]
  rfl

theorem probe_formats_nil_of_scan_none (pEnv : ProbeEnv) (name card_name : String)
    (direction : Direction) (pcm0 : AlsaPcm)
    (h : scanAccepted pEnv.testRate VEC_CAPACITY [] (rateCandidates pEnv) = none ∨
      scanAccepted pEnv.testChannels VEC_CAPACITY [] (chanCandidates pEnv) = none)
    (hp : AlsaPcm.probe pEnv name card_name direction = some pcm0) :
    pcm0.formats = [] := by
  unfold AlsaPcm.probe at hp
  by_cases hc : (pEnv.openOk && pEnv.infoOk && pEnv.hwpOk && pEnv.resampleSetOk) = true
  · rw [if_pos hc] at hp
    by_cases hemp : (probeFormats pEnv.testFormat).isEmpty
    · simp [hemp] at hp
    · simp only [hemp, Bool.false_eq_true, if_false] at hp
      cases hr : scanAccepted pEnv.testRate VEC_CAPACITY [] (rateCandidates pEnv) with
      | none => rw [hr] at hp; cases hp
      | some rates =>
        rw [hr] at hp
        cases hch : scanAccepted pEnv.testChannels VEC_CAPACITY [] (chanCandidates pEnv) with
        | none => rw [hch] at hp; cases hp
        | some chans =>
          rcases h with h | h
          · rw [hr] at h; cases h
          · rw [hch] at h; cases h
  · rw [if_neg hc] at hp
    injection hp with hp
    subst hp
    rfl

set_option maxRecDepth 10000 in
/-- Counterexample for C3: a device accepting every rate in its reported
range 3000..=3101 makes the linear scan find a 101st accepted rate; the
claim says the endpoint is re-probed against the curated fallback list and
still appears (every fallback value being accepted here), but AlsaPcm::new
returns None — the endpoint is dropped entirely, and no is_real_hardware
field exists on AlsaPcm. -/
theorem c3_counterexample_ceiling_drops_endpoint :
    AlsaPcm.new pEnvFake tEnvAll bEnvW "hw:9" "9" Direction.playback = none := by
  decide

/-- C3 amended: when the linear rate scan (or the channel-count scan)
reaches the accepted-value ceiling of 100 entries and finds one more
accepted value, AlsaPcm::new returns None: the endpoint is dropped from
the results entirely; no fallback re-probe happens and no
is_real_hardware flag is recorded. -/
theorem c3_amended_ceiling_returns_none (pEnv : ProbeEnv) (tEnv : TrialEnv)
    (bEnv : BufRangeEnv) (name card_name : String) (direction : Direction)
    (h : scanAccepted pEnv.testRate VEC_CAPACITY [] (rateCandidates pEnv) = none ∨
      scanAccepted pEnv.testChannels VEC_CAPACITY [] (chanCandidates pEnv) = none) :
    AlsaPcm.new pEnv tEnv bEnv name card_name direction = none := by
  cases hp : AlsaPcm.probe pEnv name card_name direction with
  | none => unfold AlsaPcm.new; rw [hp]
  | some pcm0 =>
    have hf : pcm0.formats = [] :=
      probe_formats_nil_of_scan_none pEnv name card_name direction pcm0 h hp
    have hnil : AlsaPcm.get_valid_configurations tEnv bEnv pcm0 = [] :=
      get_valid_configurations_formats_nil tEnv bEnv pcm0 hf
    unfold AlsaPcm.new
    rw [hp]
    simp [hnil]

set_option maxRecDepth 10000 in
/-- Witness for C3 amended: applying the amended theorem to the concrete
over-accepting device pEnvFake, whose rate scan overflows the ceiling. -/
theorem c3_witness :
    AlsaPcm.new pEnvFake tEnvAll bEnvW "hw:8" "8" Direction.capture = none :=
  c3_amended_ceiling_returns_none pEnvFake tEnvAll bEnvW "hw:8" "8" Direction.capture
    (Or.inl (by decide))

/- ===================== C4 ===================== -/

theorem sendLoop_no_match {key : String} :
    ∀ (ws : List ThreadWorker) (acc : Bool × Bool),
      ws.foldl (fun acc w => if w.card_name = key then (w.alive, !w.alive) else acc) acc =
        (false, false) →
      acc = (false, false) ∧ ∀ w ∈ ws, w.card_name ≠ key := by
  intro ws
  induction ws with
  | nil =>
    intro acc h
    rw [List.foldl_nil] at h
    exact ⟨h, by intro w hw; cases hw⟩
  | cons w rest ih =>
    intro acc h
    rw [List.foldl_cons] at h
    by_cases hw : w.card_name = key
    · rw [if_pos hw] at h
      obtain ⟨heq, -⟩ := ih _ h
      cases ha : w.alive <;> rw [ha] at heq <;> simp at heq
    · rw [if_neg hw] at h
      obtain ⟨heq, hrest⟩ := ih _ h
      refine ⟨heq, ?_⟩
      intro x hx
      rcases List.mem_cons.mp hx with rfl | hx2
      · exact hw
      · exact hrest x hx2

theorem key_not_mem_filtered (ws : List ThreadWorker) (key : String) :
    key ∉ (ws.filter (fun w => decide (w.card_name ≠ key))).map ThreadWorker.card_name := by
  intro hmem
  rw [List.mem_map] at hmem
  obtain ⟨w, hw, hwk⟩ := hmem
  have := (List.mem_filter.mp hw).2
  rw [decide_eq_true_iff] at this
  exact this hwk

theorem filtered_map_nodup (ws : List ThreadWorker) (p : ThreadWorker → Bool)
    (h : (ws.map ThreadWorker.card_name).Nodup) :
    ((ws.filter p).map ThreadWorker.card_name).Nodup :=
  h.sublist ((List.filter_sublist ws).map ThreadWorker.card_name)

theorem addJobKey_nodup (tm : ThreadManager) (key : String)
    (h : (tm.workers.map ThreadWorker.card_name).Nodup) :
    (((tm.addJobKey key).workers).map ThreadWorker.card_name).Nodup := by
  unfold ThreadManager.addJobKey
  cases h1 : (sendLoop tm.workers key).1 <;> cases h2 : (sendLoop tm.workers key).2
  · -- no worker matched: push a fresh worker onto the unfiltered table
    simp only [h1, h2, Bool.not_false, if_true, Bool.false_eq_true, if_false]
    rw [List.map_append, List.nodup_append]
    refine ⟨h, by simp, ?_⟩
    have hsl : sendLoop tm.workers key = (false, false) :=
      Prod.ext_iff.mpr ⟨h1, h2⟩
    have hnm := (sendLoop_no_match tm.workers (false, false) hsl).2
    intro a ha hb
    simp only [List.map_cons, List.map_nil, List.mem_singleton] at hb
    rw [List.mem_map] at ha
    obtain ⟨w, hw, rfl⟩ := ha
    exact hnm w hw hb
  · -- the matching worker was dead: drop it, then push a fresh worker
    simp only [h1, h2, Bool.not_false, if_true]
    rw [List.map_append, List.nodup_append]
    refine ⟨filtered_map_nodup _ _ h, by simp, ?_⟩
    intro a ha hb
    simp only [List.map_cons, List.map_nil, List.mem_singleton] at hb
    rw [hb] at ha
    exact key_not_mem_filtered tm.workers key ha
  · -- the job was forwarded to the live matching worker: table unchanged
    simp only [h1, h2, Bool.not_true, Bool.false_eq_true, if_false]
    exact h
  · -- unreachable combination (sent and bad at once); the table only shrinks
    simp only [h1, h2, Bool.not_true, Bool.false_eq_true, if_false]
    exact filtered_map_nodup _ _ h

theorem set_self_of_getElem {α : Type} (l : List α) (i : Nat) (a : α)
    (h : l[i]? = some a) : l.set i a = l := by
  induction l generalizing i with
  | nil => simp at h
  | cons x xs ih =>
    cases i with
    | zero =>
      simp only [List.getElem?_cons_zero, Option.some.injEq] at h
      rw [List.set_cons_zero, h]
    | succ n =>
      simp only [List.getElem?_cons_succ] at h
      rw [List.set_cons_succ, ih n h]

theorem crashWorker_map_card_name (tm : ThreadManager) (i : Nat) :
    ((crashWorker tm i).workers.map ThreadWorker.card_name) =
      tm.workers.map ThreadWorker.card_name := by
  unfold crashWorker
  cases hw : tm.workers[i]? with
  | none => rfl
  | some w =>
    simp only
    rw [List.map_set]
    exact set_self_of_getElem _ i _ (by rw [List.getElem?_map, hw]; rfl)

/-- C4: the dispatcher's worker table holds at most one worker per card key
after any sequence of add_job calls and worker deaths, starting from the
empty table: the card keys of the workers are pairwise distinct. -/
theorem c4_one_worker_per_card (steps : List ManagerStep) :
    (((runManager steps).workers).map ThreadWorker.card_name).Nodup := by
  have aux : ∀ (ss : List ManagerStep) (tm : ThreadManager),
      (tm.workers.map ThreadWorker.card_name).Nodup →
      (((ss.foldl applyStep tm).workers).map ThreadWorker.card_name).Nodup := by
    intro ss
    induction ss with
    | nil => intro tm h; simpa using h
    | cons s rest ih =>
      intro tm h
      rw [List.foldl_cons]
      apply ih
      cases s with
      | job name =>
        show ((((tm.add_job name).getD tm).workers).map ThreadWorker.card_name).Nodup
        unfold ThreadManager.add_job
        cases hk : cardKey name with
        | none => simpa using h
        | some key =>
          simp only [Option.map_some', Option.getD_some]
          exact addJobKey_nodup tm (String.mk key) h
      | crash i =>
        show (((crashWorker tm i).workers).map ThreadWorker.card_name).Nodup
        rw [crashWorker_map_card_name]
        exact h
  exact aux steps ThreadManager.new (by simp [ThreadManager.new])

/- ===================== C1 ===================== -/

theorem mem_get_valid_configurations {tEnv : TrialEnv} {bEnv : BufRangeEnv}
    {pcm : AlsaPcm} {cfg : ValidConfiguration} :
    cfg ∈ AlsaPcm.get_valid_configurations tEnv bEnv pcm ↔
      ∃ format rate channels,
        format ∈ pcm.formats ∧ rate ∈ pcm.rates ∧ channels ∈ pcm.channels ∧
        AlsaPcm.test_params tEnv format none none = true ∧
        AlsaPcm.test_params tEnv format (some rate) none = true ∧
        AlsaPcm.test_params tEnv format (some rate) (some channels) = true ∧
        cfg = ValidConfiguration.new bEnv pcm format rate channels := by
  unfold AlsaPcm.get_valid_configurations
  simp only [List.mem_flatMap, List.mem_filter, List.mem_map]
  constructor
  · rintro ⟨f, ⟨hf, htf⟩, r, ⟨hr, htr⟩, c, ⟨hc, htc⟩, rfl⟩
    exact ⟨f, r, c, hf, hr, hc, htf, htr, htc, rfl⟩
  · rintro ⟨f, r, c, hf, hr, hc, htf, htr, htc, rfl⟩
    exact ⟨f, ⟨hf, htf⟩, r, ⟨hr, htr⟩, c, ⟨hc, htc⟩, rfl⟩

theorem new_eq_of_probe (pEnv : ProbeEnv) (tEnv : TrialEnv) (bEnv : BufRangeEnv)
    (name card_name : String) (direction : Direction) (pcm0 : AlsaPcm)
    (hp : AlsaPcm.probe pEnv name card_name direction = some pcm0) :
    AlsaPcm.new pEnv tEnv bEnv name card_name direction =
      if (AlsaPcm.get_valid_configurations tEnv bEnv pcm0).isEmpty then none
      else some { pcm0 with
        formats := pcm0.formats.filter (fun format =>
          (AlsaPcm.get_valid_configurations tEnv bEnv pcm0).any
            (fun config => decide (config.format = format))),
        rates := pcm0.rates.filter (fun rate =>
          (AlsaPcm.get_valid_configurations tEnv bEnv pcm0).any
            (fun config => decide (config.rate = rate))),
        channels := pcm0.channels.filter (fun channels =>
          (AlsaPcm.get_valid_configurations tEnv bEnv pcm0).any
            (fun config => decide (config.channels = channels))),
        valid_configurations := AlsaPcm.get_valid_configurations tEnv bEnv pcm0 } := by
  unfold AlsaPcm.new
  rw [hp]

/-- C1: for every endpoint AlsaPcm::new returns, each ValidConfiguration's
format, rate and channel count occur in the endpoint's filtered capability
lists, and conversely every value remaining in the filtered lists occurs in
at least one of its ValidConfigurations (no dead entries). -/
theorem c1_filtered_capability_invariant (pEnv : ProbeEnv) (tEnv : TrialEnv)
    (bEnv : BufRangeEnv) (name card_name : String) (direction : Direction)
    (pcm : AlsaPcm)
    (h : AlsaPcm.new pEnv tEnv bEnv name card_name direction = some pcm) :
    (∀ cfg ∈ pcm.valid_configurations,
        cfg.format ∈ pcm.formats ∧ cfg.rate ∈ pcm.rates ∧ cfg.channels ∈ pcm.channels) ∧
    (∀ format ∈ pcm.formats, ∃ cfg ∈ pcm.valid_configurations, cfg.format = format) ∧
    (∀ rate ∈ pcm.rates, ∃ cfg ∈ pcm.valid_configurations, cfg.rate = rate) ∧
    (∀ channels ∈ pcm.channels, ∃ cfg ∈ pcm.valid_configurations, cfg.channels = channels) := by
  cases hp : AlsaPcm.probe pEnv name card_name direction with
  | none => unfold AlsaPcm.new at h; rw [hp] at h; cases h
  | some pcm0 =>
    rw [new_eq_of_probe pEnv tEnv bEnv name card_name direction pcm0 hp] at h
    by_cases he : (AlsaPcm.get_valid_configurations tEnv bEnv pcm0).isEmpty
    · rw [if_pos he] at h; cases h
    · rw [if_neg he] at h
      injection h with h
      subst h
      refine ⟨?_, ?_, ?_, ?_⟩
      · intro cfg hcfg
        have hcfg2 := hcfg
        obtain ⟨f, r, c, hf, hr, hc, htf, htr, htc, rfl⟩ :=
          mem_get_valid_configurations.mp hcfg
        refine ⟨List.mem_filter.mpr ⟨hf, ?_⟩, List.mem_filter.mpr ⟨hr, ?_⟩,
          List.mem_filter.mpr ⟨hc, ?_⟩⟩
        · exact List.any_eq_true.mpr ⟨_, hcfg2, decide_eq_true rfl⟩
        · exact List.any_eq_true.mpr ⟨_, hcfg2, decide_eq_true rfl⟩
        · exact List.any_eq_true.mpr ⟨_, hcfg2, decide_eq_true rfl⟩
      · intro format hfo
        obtain ⟨hmem, hany⟩ := List.mem_filter.mp hfo
        obtain ⟨cfg, hcfg, hdec⟩ := List.any_eq_true.mp hany
        rw [decide_eq_true_iff] at hdec
        exact ⟨cfg, hcfg, hdec⟩
      · intro rate hro
        obtain ⟨hmem, hany⟩ := List.mem_filter.mp hro
        obtain ⟨cfg, hcfg, hdec⟩ := List.any_eq_true.mp hany
        rw [decide_eq_true_iff] at hdec
        exact ⟨cfg, hcfg, hdec⟩
      · intro channels hco
        obtain ⟨hmem, hany⟩ := List.mem_filter.mp hco
        obtain ⟨cfg, hcfg, hdec⟩ := List.any_eq_true.mp hany
        rw [decide_eq_true_iff] at hdec
        exact ⟨cfg, hcfg, hdec⟩

/-- Witness for C1: the concrete endpoint pEnvW under the all-accepting
trial oracle, whose only configuration is (S16, 44100, 2). -/
theorem c1_witness :
    (∀ cfg ∈ pcmW.valid_configurations,
        cfg.format ∈ pcmW.formats ∧ cfg.rate ∈ pcmW.rates ∧ cfg.channels ∈ pcmW.channels) ∧
    (∀ format ∈ pcmW.formats, ∃ cfg ∈ pcmW.valid_configurations, cfg.format = format) ∧
    (∀ rate ∈ pcmW.rates, ∃ cfg ∈ pcmW.valid_configurations, cfg.rate = rate) ∧
    (∀ channels ∈ pcmW.channels, ∃ cfg ∈ pcmW.valid_configurations, cfg.channels = channels) :=
  c1_filtered_capability_invariant pEnvW tEnvAll bEnvW "hw:0" "0" Direction.playback
    pcmW (by decide)

/- ===================== C2 ===================== -/

theorem filter_eq_singleton {α : Type} [DecidableEq α] {l : List α} {a : α}
    (hn : l.Nodup) (ha : a ∈ l) :
    l.filter (fun x => decide (x = a)) = [a] := by
  induction l with
  | nil => cases ha
  | cons x xs ih =>
    rcases List.mem_cons.mp ha with rfl | ha2
    · rw [List.filter_cons_of_pos (by simp)]
      have hx : a ∉ xs := (List.nodup_cons.mp hn).1
      have hnil : xs.filter (fun y => decide (y = a)) = [] := by
        rw [List.filter_eq_nil_iff]
        intro b hb hdec
        rw [decide_eq_true_iff] at hdec
        subst hdec
        exact hx hb
      rw [hnil]
    · have hxa : x ≠ a := by
        rintro rfl
        exact (List.nodup_cons.mp hn).1 ha2
      rw [List.filter_cons_of_neg (by simp [hxa])]
      exact ih (List.nodup_cons.mp hn).2 ha2

theorem filter_pair_perm {l : List Nat} {a b : Nat} (hn : l.Nodup) (ha : a ∈ l)
    (hb : b ∈ l) (hab : a ≠ b) :
    List.Perm (l.filter (fun x => decide (x = a) || decide (x = b))) [a, b] := by
  apply List.perm_of_nodup_nodup_toFinset_eq (hn.filter _) (by simp [hab])
  ext x
  simp only [List.mem_toFinset, List.mem_filter, Bool.or_eq_true, decide_eq_true_iff,
    List.mem_cons, List.mem_singleton, List.not_mem_nil, or_false]
  constructor
  · rintro ⟨-, h⟩
    exact h
  · rintro (rfl | rfl)
    · exact ⟨ha, Or.inl rfl⟩
    · exact ⟨hb, Or.inr rfl⟩

/-- C2: against a backend accepting exactly format S16, rates 44100 and
48000, and 2 channels (every probe of any other value failing), the
configuration search over duplicate-free candidate lists containing those
values yields exactly the two triples (S16, 44100, 2) and (S16, 48000, 2),
each once, with no duplicates and no other triples. -/
theorem c2_mock_backend_search (tEnv : TrialEnv) (bEnv : BufRangeEnv) (pcm : AlsaPcm)
    (h1 : ∀ format, AlsaPcm.test_params tEnv format none none =
      decide (format = Format.s16))
    (h2 : ∀ format rate, AlsaPcm.test_params tEnv format (some rate) none =
      (decide (format = Format.s16) && (decide (rate = 44100) || decide (rate = 48000))))
    (h3 : ∀ format rate channels,
      AlsaPcm.test_params tEnv format (some rate) (some channels) =
      (decide (format = Format.s16) && (decide (rate = 44100) || decide (rate = 48000)) &&
        decide (channels = 2)))
    (hfn : pcm.formats.Nodup) (hf : Format.s16 ∈ pcm.formats)
    (hrn : pcm.rates.Nodup) (hr1 : (44100 : Nat) ∈ pcm.rates)
    (hr2 : (48000 : Nat) ∈ pcm.rates)
    (hcn : pcm.channels.Nodup) (hc : (2 : Nat) ∈ pcm.channels) :
    List.Perm ((AlsaPcm.get_valid_configurations tEnv bEnv pcm).map
        (fun cfg => (cfg.format, cfg.rate, cfg.channels)))
      [(Format.s16, 44100, 2), (Format.s16, 48000, 2)] := by
  unfold AlsaPcm.get_valid_configurations
  rw [List.filter_congr (fun f _ => h1 f), filter_eq_singleton hfn hf]
  simp only [List.flatMap_cons, List.flatMap_nil, List.append_nil]
  have hrq : pcm.rates.filter
      (fun rate => AlsaPcm.test_params tEnv Format.s16 (some rate) none) =
      pcm.rates.filter (fun rate => decide (rate = 44100) || decide (rate = 48000)) :=
    List.filter_congr (fun r _ => by rw [h2]; simp)
  rw [hrq]
  have hch44 : pcm.channels.filter
      (fun channels => AlsaPcm.test_params tEnv Format.s16 (some 44100) (some channels)) =
      [2] := by
    have hcongr : ∀ c ∈ pcm.channels,
        AlsaPcm.test_params tEnv Format.s16 (some 44100) (some c) = decide (c = 2) := by
      intro c _
      rw [h3]
      simp
    rw [List.filter_congr hcongr]
    exact filter_eq_singleton hcn hc
  have hch48 : pcm.channels.filter
      (fun channels => AlsaPcm.test_params tEnv Format.s16 (some 48000) (some channels)) =
      [2] := by
    have hcongr : ∀ c ∈ pcm.channels,
        AlsaPcm.test_params tEnv Format.s16 (some 48000) (some c) = decide (c = 2) := by
      intro c _
      rw [h3]
      simp
    rw [List.filter_congr hcongr]
    exact filter_eq_singleton hcn hc
  rw [List.map_flatMap]
  refine ((filter_pair_perm hrn hr1 hr2 (by norm_num)).flatMap_right _).trans ?_
  simp only [List.flatMap_cons, List.flatMap_nil, List.append_nil]
  rw [hch44, hch48]
  exact List.Perm.refl _

/-- Witness for C2: the concrete mock trial oracle tEnvMock over the
candidate lists of pcmMock. -/
theorem c2_witness :
    List.Perm ((AlsaPcm.get_valid_configurations tEnvMock bEnvW pcmMock).map
        (fun cfg => (cfg.format, cfg.rate, cfg.channels)))
      [(Format.s16, 44100, 2), (Format.s16, 48000, 2)] :=
  c2_mock_backend_search tEnvMock bEnvW pcmMock
    (by intro format; cases format <;> rfl)
    (by
      intro format rate
      cases format <;> simp [AlsaPcm.test_params, tEnvMock])
    (by
      intro format rate channels
      cases format <;> simp [AlsaPcm.test_params, tEnvMock])
    (by decide) (by decide) (by decide) (by decide) (by decide) (by decide) (by decide)

/- The capped scan only ever keeps candidates, in candidate order: its
   result extends the accumulator by a sublist of the candidate list. -/
theorem scanAccepted_sublist (accepts : Nat → Bool) (cap : Nat) :
    ∀ (cands acc l : List Nat), scanAccepted accepts cap acc cands = some l →
      ∃ t, l = acc ++ t ∧ t.Sublist cands := by
  intro cands
  induction cands with
  | nil =>
    intro acc l h
    rw [scanAccepted] at h
    injection h with h
    exact ⟨[], by rw [← h]; simp, List.Sublist.refl _⟩
  | cons v rest ih =>
    intro acc l h
    rw [scanAccepted] at h
    by_cases hv : accepts v
    · rw [if_pos hv] at h
      by_cases hlen : acc.length ≠ cap
      · rw [if_pos hlen] at h
        obtain ⟨t, ht, hs⟩ := ih (acc ++ [v]) l h
        refine ⟨v :: t, by rw [ht]; simp, List.Sublist.cons₂ v hs⟩
      · rw [if_neg hlen] at h
        cases h
    · rw [if_neg hv] at h
      obtain ⟨t, ht, hs⟩ := ih acc l h
      exact ⟨t, ht, List.Sublist.cons v hs⟩

/- Every capability list AlsaPcm.probe builds is duplicate-free: formats is
   a filter of the duplicate-free FORMATS constant, and rates/channels are
   sublists of the strictly increasing candidate ranges.  This discharges
   the duplicate-freedom assumptions of the search scenario. -/
theorem probe_lists_nodup (pEnv : ProbeEnv) (name card_name : String)
    (direction : Direction) (pcm0 : AlsaPcm)
    (hp : AlsaPcm.probe pEnv name card_name direction = some pcm0) :
    pcm0.formats.Nodup ∧ pcm0.rates.Nodup ∧ pcm0.channels.Nodup := by
  have hrange : ∀ lo hi : Nat, (rangeIncl lo hi).Nodup := by
    intro lo hi
    exact List.nodup_range' lo (hi + 1 - lo) 1 (by norm_num)
  unfold AlsaPcm.probe at hp
  by_cases hc : (pEnv.openOk && pEnv.infoOk && pEnv.hwpOk && pEnv.resampleSetOk) = true
  · rw [if_pos hc] at hp
    by_cases hemp : (probeFormats pEnv.testFormat).isEmpty
    · simp [hemp] at hp
    · simp only [hemp, Bool.false_eq_true, if_false] at hp
      cases hr : scanAccepted pEnv.testRate VEC_CAPACITY [] (rateCandidates pEnv) with
      | none => rw [hr] at hp; cases hp
      | some rates =>
        rw [hr] at hp
        cases hch : scanAccepted pEnv.testChannels VEC_CAPACITY [] (chanCandidates pEnv) with
        | none => rw [hch] at hp; cases hp
        | some chans =>
          rw [hch] at hp
          injection hp with hp
          subst hp
          refine ⟨?_, ?_, ?_⟩
          · exact (by decide : FORMATS.Nodup).filter _
          · obtain ⟨t, ht, hs⟩ := scanAccepted_sublist pEnv.testRate VEC_CAPACITY _ _ _ hr
            rw [ht, List.nil_append]
            exact (hrange _ _).sublist hs
          · obtain ⟨t, ht, hs⟩ := scanAccepted_sublist pEnv.testChannels VEC_CAPACITY _ _ _ hch
            rw [ht, List.nil_append]
            exact (hrange _ _).sublist hs
  · rw [if_neg hc] at hp
    injection hp with hp
    subst hp
    exact ⟨List.nodup_nil, List.nodup_nil, List.nodup_nil⟩
